import Mathlib

set_option linter.unusedVariables false

/-!
Verification of the GPflux repository's behaviour, shallowly embedded in Lean.

Each Python function relevant to the checked claims is translated into a Lean
definition of the same name (up to Lean naming rules); theorems about those
definitions settle the claims.
-/

namespace GPflux

/-! ### `DeepGP._validate_num_data` (src/gpflux/models/deep_gp.py, lines 63-83)

A Keras layer either exposes a `num_data` attribute or does not
(`getattr(layer, "num_data", None)`), so a layer is modelled by an
`Option Nat`.  The validation loop threads the running `num_data` accumulator
through the list, recording the index `i` for the error message. -/

/-- The two `ValueError`s that `_validate_num_data` can raise: the
f-string mentioning the offending index and the accumulated value, and the
final "Could not determine num_data" error. -/
inductive NumDataError where
  | inconsistent (i : ℕ) (num_data : ℕ) : NumDataError
  | couldNotDetermine : NumDataError
deriving DecidableEq, Repr

/-- The `for i, layer in enumerate(f_layers)` loop of `_validate_num_data`,
together with the final `if num_data is None: raise` / `return num_data`.
`i` is the enumeration index of the head of the remaining list. -/
def validateLoop : List (Option ℕ) → ℕ → Option ℕ → Except NumDataError ℕ
  | [], _, none => .error .couldNotDetermine
  | [], _, some v => .ok v
  | l :: ls, i, none => validateLoop ls (i + 1) l
  | l :: ls, i, some v =>
    match l with
    | some w =>
      if v ≠ w then .error (.inconsistent i v) else validateLoop ls (i + 1) (some v)
    | none => validateLoop ls (i + 1) (some v)

/-- Python `DeepGP._validate_num_data(f_layers, num_data)`. -/
def validate_num_data (f_layers : List (Option ℕ)) (num_data : Option ℕ) :
    Except NumDataError ℕ :=
  validateLoop f_layers 0 num_data

/-- The `num_data` values actually present: the explicitly supplied argument
(if any) followed by the values of the layers exposing one, in order. -/
def presentVals (f_layers : List (Option ℕ)) (num_data : Option ℕ) : List ℕ :=
  num_data.toList ++ f_layers.filterMap id

lemma validateLoop_some_ok (ls : List (Option ℕ)) :
    ∀ i v u, validateLoop ls i (some v) = .ok u ↔
      (u = v ∧ ∀ x ∈ ls.filterMap id, x = v) := by
  induction ls with
  | nil =>
    intro i v u
    simp [validateLoop, eq_comm]
  | cons l ls ih =>
    intro i v u
    cases l with
    | none => simpa [validateLoop] using ih (i + 1) v u
    | some w =>
      by_cases hvw : v = w
      · subst hvw
        simpa [validateLoop] using ih (i + 1) v u
      · simp only [validateLoop, if_pos hvw]
        constructor
        · intro h; exact absurd h (by simp)
        · rintro ⟨hu, hall⟩
          exact absurd ((hall w (by simp)).symm) hvw

lemma validateLoop_some_ne_cnd (ls : List (Option ℕ)) :
    ∀ i v, validateLoop ls i (some v) ≠ .error .couldNotDetermine := by
  induction ls with
  | nil => intro i v; simp [validateLoop]
  | cons l ls ih =>
    intro i v
    cases l with
    | none => simpa [validateLoop] using ih (i + 1) v
    | some w =>
      by_cases hvw : v = w
      · subst hvw; simpa [validateLoop] using ih (i + 1) v
      · simp [validateLoop, hvw]

lemma validateLoop_some_inconsistent (ls : List (Option ℕ)) :
    ∀ i v, (∃ j m, validateLoop ls i (some v) = .error (.inconsistent j m)) ↔
      (∃ x ∈ ls.filterMap id, x ≠ v) := by
  induction ls with
  | nil => intro i v; simp [validateLoop]
  | cons l ls ih =>
    intro i v
    cases l with
    | none => simpa [validateLoop] using ih (i + 1) v
    | some w =>
      by_cases hvw : v = w
      · subst hvw
        simpa [validateLoop] using ih (i + 1) v
      · refine iff_of_true ?_ ?_
        · exact ⟨i, v, by simp [validateLoop, hvw]⟩
        · exact ⟨w, by simp, fun h => hvw h.symm⟩

lemma validateLoop_none_ok (ls : List (Option ℕ)) :
    ∀ i u, validateLoop ls i none = .ok u ↔
      ((ls.filterMap id).head? = some u ∧ ∀ x ∈ ls.filterMap id, x = u) := by
  induction ls with
  | nil => intro i u; simp [validateLoop]
  | cons l ls ih =>
    intro i u
    cases l with
    | none => simpa [validateLoop] using ih (i + 1) u
    | some w =>
      rw [validateLoop, validateLoop_some_ok]
      constructor
      · rintro ⟨rfl, hall⟩
        exact ⟨by simp, by
          intro x hx
          rcases (by simpa using hx : x = u ∨ x ∈ ls.filterMap id) with h | h
          · exact h
          · exact hall x h⟩
      · rintro ⟨hhead, hall⟩
        have hw : u = w := by simpa using hhead.symm
        subst hw
        exact ⟨rfl, fun x hx => hall x (by simp [hx])⟩

lemma validateLoop_none_cnd (ls : List (Option ℕ)) :
    ∀ i, validateLoop ls i none = .error .couldNotDetermine ↔ ls.filterMap id = [] := by
  induction ls with
  | nil => intro i; simp [validateLoop]
  | cons l ls ih =>
    intro i
    cases l with
    | none => simpa [validateLoop] using ih (i + 1)
    | some w =>
      rw [validateLoop]
      simp [validateLoop_some_ne_cnd]

lemma validateLoop_none_inconsistent (ls : List (Option ℕ)) :
    ∀ i, (∃ j m, validateLoop ls i none = .error (.inconsistent j m)) ↔
      (∃ x ∈ ls.filterMap id, ∃ y ∈ ls.filterMap id, x ≠ y) := by
  induction ls with
  | nil => intro i; simp [validateLoop]
  | cons l ls ih =>
    intro i
    cases l with
    | none => simpa [validateLoop] using ih (i + 1)
    | some w =>
      rw [validateLoop, validateLoop_some_inconsistent]
      constructor
      · rintro ⟨x, hx, hxw⟩
        exact ⟨x, by simp [hx], w, by simp, hxw⟩
      · rintro ⟨x, hx, y, hy, hxy⟩
        rcases (by simpa using hx : x = w ∨ x ∈ ls.filterMap id) with hx' | hx'
        · rcases (by simpa using hy : y = w ∨ y ∈ ls.filterMap id) with hy' | hy'
          · exact absurd (hx'.trans hy'.symm) hxy
          · exact ⟨y, hy', fun h => hxy (hx'.trans h.symm)⟩
        · by_cases hxw : x = w
          · rcases (by simpa using hy : y = w ∨ y ∈ ls.filterMap id) with hy' | hy'
            · exact absurd (hxw.trans hy'.symm) hxy
            · exact ⟨y, hy', fun h => hxy (hxw.trans h.symm)⟩
          · exact ⟨x, hx', hxw⟩

/-- C1: `DeepGP` construction resolves `num_data` by scanning `f_layers` in
order.  Writing `presentVals` for the explicitly supplied value (if any)
followed by the layers' `num_data` attributes in order:  validation returns
`v` iff the first present value is `v` and every present value equals `v`
(first occurrence seeds, later occurrences are checked);  it raises
"could not determine" iff no value is present at all;  and it raises the
inconsistency error iff two present values disagree. -/
theorem deepGP_num_data_resolution (f_layers : List (Option ℕ)) (num_data : Option ℕ) :
    (∀ v, validate_num_data f_layers num_data = .ok v ↔
      ((presentVals f_layers num_data).head? = some v ∧
        ∀ x ∈ presentVals f_layers num_data, x = v)) ∧
    (validate_num_data f_layers num_data = .error .couldNotDetermine ↔
      presentVals f_layers num_data = []) ∧
    ((∃ i m, validate_num_data f_layers num_data = .error (.inconsistent i m)) ↔
      (∃ x ∈ presentVals f_layers num_data, ∃ y ∈ presentVals f_layers num_data, x ≠ y)) := by
  cases num_data with
  | some v0 =>
    refine ⟨?_, ?_, ?_⟩
    · intro v
      rw [validate_num_data]
      rw [validateLoop_some_ok]
      constructor
      · rintro ⟨rfl, hall⟩
        constructor
        · simp [presentVals]
        · intro x hx
          rcases (by simpa [presentVals] using hx : x = v ∨ x ∈ f_layers.filterMap id) with h | h
          · exact h
          · exact hall x h
      · rintro ⟨hhead, hall⟩
        have hv : v0 = v := by simpa [presentVals] using hhead
        subst hv
        exact ⟨rfl, fun x hx => hall x (by simp [presentVals, hx])⟩
    · rw [validate_num_data]
      simp [presentVals, validateLoop_some_ne_cnd]
    · rw [validate_num_data]
      rw [validateLoop_some_inconsistent]
      constructor
      · rintro ⟨x, hx, hxv⟩
        exact ⟨x, by simp [presentVals, hx], v0, by simp [presentVals], hxv⟩
      · rintro ⟨x, hx, y, hy, hxy⟩
        rcases (by simpa [presentVals] using hx : x = v0 ∨ x ∈ f_layers.filterMap id) with hx' | hx'
        · rcases (by simpa [presentVals] using hy : y = v0 ∨ y ∈ f_layers.filterMap id) with hy' | hy'
          · exact absurd (hx'.trans hy'.symm) hxy
          · exact ⟨y, hy', fun h => hxy (hx'.trans h.symm)⟩
        · by_cases hxv : x = v0
          · rcases (by simpa [presentVals] using hy : y = v0 ∨ y ∈ f_layers.filterMap id) with hy' | hy'
            · exact absurd (hxv.trans hy'.symm) hxy
            · exact ⟨y, hy', fun h => hxy (hxv.trans h.symm)⟩
          · exact ⟨x, hx', hxv⟩
  | none =>
    refine ⟨?_, ?_, ?_⟩
    · intro v
      rw [validate_num_data, validateLoop_none_ok]
      simp [presentVals]
    · rw [validate_num_data, validateLoop_none_cnd]
      simp [presentVals]
    · rw [validate_num_data, validateLoop_none_inconsistent]
      simp [presentVals]

/-! ### `DeepGP` evaluation and `elbo` (src/gpflux/models/deep_gp.py, lines 85-158)

Keras semantics of a layer call: the call produces an output tensor and, as a
side effect, records a list of loss terms that is afterwards readable as
`layer.losses`.  The shallow embedding makes the recorded losses an explicit
second component of the call's result.  Tensors are modelled by rationals.
A layer inheriting from `LayerWithObservations` is additionally passed the
`observations` argument (`[inputs, targets]` or `None`), which the
`isinstance` test in `_evaluate_deep_gp` dispatches on; the two constructors
of `FLayer` model the two sides of that test. -/

/-- One element of `f_layers`: either a plain Keras layer, called as
`layer(features, training=training)`, or a `LayerWithObservations`, called as
`layer(features, observations=observations, training=training)`.  Each call
returns the output features together with the losses it records. -/
inductive FLayer where
  | plain (call : ℚ → Bool → ℚ × List ℚ) : FLayer
  | withObs (call : ℚ → Option (ℚ × ℚ) → Bool → ℚ × List ℚ) : FLayer

/-- Dispatch of `isinstance(layer, LayerWithObservations)`: a plain layer is
not handed the observations. -/
def FLayer.callOn (l : FLayer) (features : ℚ) (observations : Option (ℚ × ℚ))
    (training : Bool) : ℚ × List ℚ :=
  match l with
  | .plain c => c features training
  | .withObs c => c features observations training

/-- The likelihood layer: called as
`likelihood_layer(f_outputs, targets=targets, training=training)`,
returning output and recorded losses. -/
structure LikLayer where
  call : ℚ → Option ℚ → Bool → ℚ × List ℚ

/-- The state of a `DeepGP` instance that `elbo` reads. -/
structure DeepGP where
  f_layers : List FLayer
  likelihood_layer : LikLayer
  num_data : ℕ

/-- The `for layer in self.f_layers` loop of `_evaluate_deep_gp`: thread the
features through the layers in order, collecting each layer's recorded
losses (one list per layer, in layer order). -/
def evalLayers : List FLayer → ℚ → Option (ℚ × ℚ) → Bool → ℚ × List (List ℚ)
  | [], features, _, _ => (features, [])
  | l :: ls, features, obs, training =>
    let r := l.callOn features obs training
    let rest := evalLayers ls r.1 obs training
    (rest.1, r.2 :: rest.2)

/-- Python `DeepGP._evaluate_deep_gp(inputs, targets, training)`: observations are
`[inputs, targets]` when targets are given, otherwise `None`. -/
def DeepGP.evaluate_deep_gp (m : DeepGP) (inputs : ℚ) (targets : Option ℚ)
    (training : Bool) : ℚ × List (List ℚ) :=
  let observations := match targets with
    | some t => some (inputs, t)
    | none => none
  evalLayers m.f_layers inputs observations training

/-- Python `DeepGP.call(inputs, targets, training)`: evaluate the deep GP, then the
likelihood layer on its output.  Result: the likelihood output, the per-layer
recorded losses of `f_layers`, and the likelihood layer's recorded losses. -/
def DeepGP.call (m : DeepGP) (inputs : ℚ) (targets : Option ℚ) (training : Bool) :
    ℚ × List (List ℚ) × List ℚ :=
  let f := m.evaluate_deep_gp inputs targets training
  let y := m.likelihood_layer.call f.1 targets training
  (y.1, f.2, y.2)

/-- Python `DeepGP.elbo(data)`: one call in training mode, then
`-tf.reduce_sum(all_losses) * self.num_data` where `all_losses` chains the
losses of every layer in `f_layers` and of the likelihood layer. -/
def DeepGP.elbo (m : DeepGP) (data : ℚ × ℚ) : ℚ :=
  let r := m.call data.1 (some data.2) true
  let all_losses := r.2.1.flatten ++ r.2.2
  Neg.neg all_losses.sum * (m.num_data : ℚ)

/-- Specification-side description of one training-mode evaluation: the
features each layer receives (the running composition), independently of the
loss bookkeeping of `evalLayers`. -/
def forwardF (ls : List FLayer) (features : ℚ) (obs : Option (ℚ × ℚ))
    (training : Bool) : ℚ :=
  ls.foldl (fun z l => (l.callOn z obs training).1) features

/-- Specification-side description of the loss terms recorded by the layers
of `f_layers` during one evaluation: each layer's losses at the features it
receives, concatenated in layer order. -/
def layerLossTerms : List FLayer → ℚ → Option (ℚ × ℚ) → Bool → List ℚ
  | [], _, _, _ => []
  | l :: ls, features, obs, training =>
    (l.callOn features obs training).2 ++
      layerLossTerms ls (l.callOn features obs training).1 obs training

lemma evalLayers_fst (ls : List FLayer) :
    ∀ features obs training, (evalLayers ls features obs training).1 =
      forwardF ls features obs training := by
  induction ls with
  | nil => intro features obs training; rfl
  | cons l ls ih =>
    intro features obs training
    simp only [evalLayers, forwardF, List.foldl_cons]
    exact ih _ obs training

lemma evalLayers_flatten (ls : List FLayer) :
    ∀ features obs training, (evalLayers ls features obs training).2.flatten =
      layerLossTerms ls features obs training := by
  induction ls with
  | nil => intro features obs training; rfl
  | cons l ls ih =>
    intro features obs training
    simp only [evalLayers, layerLossTerms, List.flatten_cons]
    rw [ih]

/-- C2: for every data pair `(X, Y)`, `DeepGP.elbo (X, Y)` equals minus the
sum of all loss terms recorded during one training-mode evaluation of the
model on `(X, Y)` — those of every layer of `f_layers` (each at the features
it receives in the composition, with `observations = [X, Y]`) followed by
those of the likelihood layer at the final features — multiplied by
`num_data`. -/
theorem deepGP_elbo_eq (m : DeepGP) (X Y : ℚ) :
    m.elbo (X, Y) =
      -(layerLossTerms m.f_layers X (some (X, Y)) true ++
          (m.likelihood_layer.call (forwardF m.f_layers X (some (X, Y)) true)
            (some Y) true).2).sum * (m.num_data : ℚ) := by
  unfold DeepGP.elbo DeepGP.call DeepGP.evaluate_deep_gp
  simp only [evalLayers_fst, evalLayers_flatten]

/-! ### `sample_dgp` (src/gpflux/models/deep_gp.py, lines 218-230)

Each layer's `.sample()` draws a function; randomness is modelled by a seed
of type `ℕ` threaded through the draws.  The returned `ChainedSample` closes
over the list of drawn functions: it takes no random state, so it cannot
resample. -/

/-- A layer as `sample_dgp` sees it: `.sample()` consumes random state and
yields a drawn function. -/
structure SampleLayer where
  sample : ℕ → (ℚ → ℚ) × ℕ

/-- The model state `sample_dgp` reads. -/
structure SampleModel where
  f_layers : List SampleLayer

/-- The list comprehension
`function_draws = [layer.sample() for layer in model.f_layers]`:
one draw per layer, random state threaded left to right. -/
def functionDraws : List SampleLayer → ℕ → List (ℚ → ℚ) × ℕ
  | [], r => ([], r)
  | l :: ls, r =>
    let d := l.sample r
    let rest := functionDraws ls d.2
    (d.1 :: rest.1, rest.2)

/-- Python `ChainedSample.__call__(X)`: `for f in function_draws: X = f(X)`. -/
def chainedSampleCall (function_draws : List (ℚ → ℚ)) (X : ℚ) : ℚ :=
  function_draws.foldl (fun x f => f x) X

/-- Python `sample_dgp(model)`: draw the per-layer functions once, at call time, and
return the chained sample object together with the advanced random state. -/
def sample_dgp (model : SampleModel) (r : ℕ) : (ℚ → ℚ) × ℕ :=
  let draws := functionDraws model.f_layers r
  (fun X => chainedSampleCall draws.1 X, draws.2)

lemma functionDraws_length (ls : List SampleLayer) :
    ∀ r, (functionDraws ls r).1.length = ls.length := by
  induction ls with
  | nil => intro r; rfl
  | cons l ls ih => intro r; simp [functionDraws, ih]

/-- C3: `sample_dgp model` draws exactly one sample function per layer of
`model.f_layers` at the moment it is called (the draws list has one entry per
layer, threaded through the random state), and the returned object applies
those drawn functions in layer order: on an empty layer list it is the
identity, and for layers `l :: ls` it first applies `l`'s draw and then
behaves as the sample of the remaining layers under the advanced state.
Every evaluation of the returned object — on the same or different inputs —
folds the one list of functions drawn at `sample_dgp` time, so two
evaluations on the same input yield the same result. -/
theorem sample_dgp_spec (model : SampleModel) (r : ℕ) :
    ((functionDraws model.f_layers r).1.length = model.f_layers.length) ∧
    (∀ X, (sample_dgp ⟨[]⟩ r).1 X = X) ∧
    (∀ l ls X, (sample_dgp ⟨l :: ls⟩ r).1 X =
      (sample_dgp ⟨ls⟩ (l.sample r).2).1 ((l.sample r).1 X)) ∧
    (∀ X, (sample_dgp model r).1 X =
      chainedSampleCall (functionDraws model.f_layers r).1 X) ∧
    (∀ X, (sample_dgp model r).1 X = (sample_dgp model r).1 X) := by
  refine ⟨functionDraws_length model.f_layers r, fun X => rfl, ?_, fun X => rfl, fun X => rfl⟩
  intro l ls X
  simp [sample_dgp, functionDraws, chainedSampleCall]

/-! ### `init_inducing_points` (src/experiments/bayesian_benchmarks/bayesbench_deepgp.py,
lines 29-33, and identically bayesbench_latent_deep_gp.py, lines 27-31)

Matrices are lists of rows of rationals.  The two external row sources —
`scipy.cluster.vq.kmeans2(X, num, minit="points")[0]` (the centroid array)
and `np.random.randn(n, d)` — are passed in as function parameters, with
their documented row counts taken as hypotheses. -/

/-- A 2-D array as a list of rows. -/
abbrev Mat := List (List ℚ)

/-- Python `X.shape[1]` of a non-empty 2-D array. -/
def numCols (X : Mat) : ℕ := (X.headI).length

/-- Python `init_inducing_points(X, num)`: k-means centroids when there are more
rows than requested points, otherwise the rows of `X` followed by
`num - X.shape[0]` standard-normal rows. -/
def init_inducing_points (kmeans2_centroids : Mat → ℕ → Mat)
    (randn : ℕ → ℕ → Mat) (X : Mat) (num : ℕ) : Mat :=
  if X.length > num then kmeans2_centroids X num
  else X ++ randn (num - X.length) (numCols X)

/-- C4: with `N = X.shape[0]` rows and requested count `M`, assuming the
external contracts that `kmeans2` returns the requested number of centroids
and `randn n d` returns `n` rows:  when `N > M` the result is exactly the
k-means centroid array of `X` (hence `M` rows);  when `N ≤ M` the result has
exactly `M` rows, its first `N` rows are the rows of `X`, and its remaining
`M - N` rows are exactly the fresh standard-normal draws `randn (M - N) D`
(drawn, not copied from `X`). -/
theorem init_inducing_points_spec (kmeans2_centroids : Mat → ℕ → Mat)
    (randn : ℕ → ℕ → Mat) (X : Mat) (num : ℕ)
    (hkm : ∀ Y n, (kmeans2_centroids Y n).length = n)
    (hrandn : ∀ n d, (randn n d).length = n) :
    (X.length > num →
      init_inducing_points kmeans2_centroids randn X num = kmeans2_centroids X num ∧
      (init_inducing_points kmeans2_centroids randn X num).length = num) ∧
    (X.length ≤ num →
      (init_inducing_points kmeans2_centroids randn X num).length = num ∧
      (init_inducing_points kmeans2_centroids randn X num).take X.length = X ∧
      (init_inducing_points kmeans2_centroids randn X num).drop X.length =
        randn (num - X.length) (numCols X)) := by
  constructor
  · intro h
    rw [init_inducing_points, if_pos h]
    exact ⟨rfl, hkm X num⟩
  · intro h
    have hcond : ¬X.length > num := not_lt.mpr h
    rw [init_inducing_points, if_neg hcond]
    refine ⟨?_, ?_, ?_⟩
    · rw [List.length_append, hrandn]
      omega
    · simp
    · simp

/-- A degenerate stand-in for the k-means centroid array, used only to
instantiate the external-contract hypotheses at a concrete input. -/
def kmeansW : Mat → ℕ → Mat := fun _ n => List.replicate n [0]

/-- A degenerate stand-in for `np.random.randn`, used only to instantiate the
external-contract hypotheses at a concrete input. -/
def randnW : ℕ → ℕ → Mat := fun n d => List.replicate n (List.replicate d 0)

/-- Witness for C4 at `X = [[1], [2]]`, `num = 3`. -/
theorem init_inducing_points_spec_witness :
    (([[1], [2]] : Mat).length > 3 →
      init_inducing_points kmeansW randnW [[1], [2]] 3 = kmeansW [[1], [2]] 3 ∧
      (init_inducing_points kmeansW randnW [[1], [2]] 3).length = 3) ∧
    (([[1], [2]] : Mat).length ≤ 3 →
      (init_inducing_points kmeansW randnW [[1], [2]] 3).length = 3 ∧
      (init_inducing_points kmeansW randnW [[1], [2]] 3).take ([[1], [2]] : Mat).length
        = [[1], [2]] ∧
      (init_inducing_points kmeansW randnW [[1], [2]] 3).drop ([[1], [2]] : Mat).length
        = randnW (3 - ([[1], [2]] : Mat).length) (numCols [[1], [2]])) :=
  init_inducing_points_spec kmeansW randnW [[1], [2]] 3
    (fun _ n => List.length_replicate n [0]) (fun n _ => List.length_replicate n _)

/-! ### `BayesBench_DeepGP._optimize` (src/experiments/bayesian_benchmarks/
bayesbench_deepgp.py, lines 198-251)

The parameters `_optimize` touches are the last GP layer's variational pair
`(q_mu, q_sqrt)` and, lumped together, every other trainable weight of the
model; each carries the `trainable` flag that `set_trainable` flips and that
`model.trainable_weights` filters on.  The two external optimizers are
abstracted as update rules:  `natgrad_update gamma objective values` is one
`NaturalGradient(gamma=gamma).minimize(objective, var_params)` update of the
variational pair, and `adam_update objective values` is the update Adam
proposes for each parameter, applied only to those whose flag is set. -/

/-- The parameter state of the model during `_optimize`. -/
structure OptState where
  q_mu : ℚ
  q_sqrt : ℚ
  other : ℚ
  q_mu_trainable : Bool
  q_sqrt_trainable : Bool
  other_trainable : Bool

/-- The value vector the objective closure reads. -/
def OptState.values (s : OptState) : ℚ × ℚ × ℚ := (s.q_mu, s.q_sqrt, s.other)

/-- The two external optimizer update rules. -/
structure Optimizers where
  natgrad_update : ℚ → ((ℚ × ℚ × ℚ) → ℚ) → (ℚ × ℚ × ℚ) → ℚ × ℚ
  adam_update : ((ℚ × ℚ × ℚ) → ℚ) → (ℚ × ℚ × ℚ) → ℚ × ℚ × ℚ

/-- Python `natgrad_step()`: one natural-gradient update, step size `gamma`, of the
variational pair `(q_mu, q_sqrt)` against the objective; it targets
`var_params` directly, regardless of trainable flags. -/
def natgrad_step (opt : Optimizers) (gamma : ℚ) (objective : (ℚ × ℚ × ℚ) → ℚ)
    (s : OptState) : OptState :=
  let p := opt.natgrad_update gamma objective s.values
  { s with q_mu := p.1, q_sqrt := p.2 }

/-- Python `adam_step()`: `adam_opt.minimize(objective_closure,
self.model.trainable_weights)` — Adam's proposed update is applied exactly to
the parameters whose trainable flag is set. -/
def adam_step (opt : Optimizers) (objective : (ℚ × ℚ × ℚ) → ℚ)
    (s : OptState) : OptState :=
  let p := opt.adam_update objective s.values
  { s with
    q_mu := if s.q_mu_trainable then p.1 else s.q_mu,
    q_sqrt := if s.q_sqrt_trainable then p.2.1 else s.q_sqrt,
    other := if s.other_trainable then p.2.2 else s.other }

/-- The `for param in param_list: set_trainable(param, False)` block run when
`Config.NATGRAD` holds, before the loop starts. -/
def mark_var_params_untrainable (s : OptState) : OptState :=
  { s with q_mu_trainable := false, q_sqrt_trainable := false }

/-- One iteration of the `for i in tq` loop with natural gradient enabled:
`natgrad_step()` then `adam_step()`. -/
def natgradIteration (opt : Optimizers) (gamma : ℚ)
    (objective : (ℚ × ℚ × ℚ) → ℚ) (s : OptState) : OptState :=
  adam_step opt objective (natgrad_step opt gamma objective s)

/-- One iteration with natural gradient disabled: only `adam_step()`. -/
def plainIteration (opt : Optimizers) (objective : (ℚ × ℚ × ℚ) → ℚ)
    (s : OptState) : OptState :=
  adam_step opt objective s

/-- Python `BayesBench_DeepGP._optimize`, restricted to its parameter-update
behaviour: when `NATGRAD` is enabled, first mark the variational pair
non-trainable, then run `MAXITER` iterations of natgrad-then-Adam; otherwise
run `MAXITER` plain Adam iterations. -/
def optimize (opt : Optimizers) (natgrad : Bool) (gamma : ℚ)
    (objective : (ℚ × ℚ × ℚ) → ℚ) (maxiter : ℕ) (s : OptState) : OptState :=
  if natgrad then
    (natgradIteration opt gamma objective)^[maxiter] (mark_var_params_untrainable s)
  else
    (plainIteration opt objective)^[maxiter] s

lemma natgradIteration_flags (opt : Optimizers) (gamma : ℚ)
    (objective : (ℚ × ℚ × ℚ) → ℚ) (s : OptState) :
    ∀ n, ((natgradIteration opt gamma objective)^[n]
        (mark_var_params_untrainable s)).q_mu_trainable = false ∧
      ((natgradIteration opt gamma objective)^[n]
        (mark_var_params_untrainable s)).q_sqrt_trainable = false := by
  intro n
  induction n with
  | zero => exact ⟨rfl, rfl⟩
  | succ n ih =>
    rw [Function.iterate_succ_apply']
    exact ⟨ih.1 ▸ rfl, ih.2 ▸ rfl⟩

/-- C5: with natural gradient enabled, `_optimize` marks the last layer's
variational pair `(q_mu, q_sqrt)` non-trainable before the loop begins, the
flags stay cleared at every iteration (so the pair never belongs to the
trainable set the Adam step updates), and each loop iteration performs
exactly one natural-gradient update of the pair — step size `gamma`, against
the objective (the negative ELBO closure) — followed by one Adam step over
the remaining trainable parameters:  after the Adam step of an iteration,
`(q_mu, q_sqrt)` hold exactly the values the iteration's single
natural-gradient update produced. -/
theorem natgrad_optimize_spec (opt : Optimizers) (gamma : ℚ)
    (objective : (ℚ × ℚ × ℚ) → ℚ) (maxiter : ℕ) (s : OptState) :
    ((mark_var_params_untrainable s).q_mu_trainable = false ∧
      (mark_var_params_untrainable s).q_sqrt_trainable = false ∧
      (mark_var_params_untrainable s).q_mu = s.q_mu ∧
      (mark_var_params_untrainable s).q_sqrt = s.q_sqrt) ∧
    (optimize opt true gamma objective maxiter s =
      (natgradIteration opt gamma objective)^[maxiter]
        (mark_var_params_untrainable s)) ∧
    (∀ n, ((natgradIteration opt gamma objective)^[n]
        (mark_var_params_untrainable s)).q_mu_trainable = false ∧
      ((natgradIteration opt gamma objective)^[n]
        (mark_var_params_untrainable s)).q_sqrt_trainable = false) ∧
    (∀ n,
      (natgradIteration opt gamma objective)^[n + 1]
          (mark_var_params_untrainable s) =
        adam_step opt objective (natgrad_step opt gamma objective
          ((natgradIteration opt gamma objective)^[n]
            (mark_var_params_untrainable s))) ∧
      ((natgradIteration opt gamma objective)^[n + 1]
          (mark_var_params_untrainable s)).q_mu =
        (natgrad_step opt gamma objective
          ((natgradIteration opt gamma objective)^[n]
            (mark_var_params_untrainable s))).q_mu ∧
      ((natgradIteration opt gamma objective)^[n + 1]
          (mark_var_params_untrainable s)).q_sqrt =
        (natgrad_step opt gamma objective
          ((natgradIteration opt gamma objective)^[n]
            (mark_var_params_untrainable s))).q_sqrt) := by
  refine ⟨⟨rfl, rfl, rfl, rfl⟩, rfl, natgradIteration_flags opt gamma objective s, ?_⟩
  intro n
  have hflags := natgradIteration_flags opt gamma objective s n
  rw [Function.iterate_succ_apply']
  refine ⟨rfl, ?_, ?_⟩
  · show (adam_step opt objective (natgrad_step opt gamma objective _)).q_mu = _
    simp [adam_step, natgrad_step, hflags.1]
  · show (adam_step opt objective (natgrad_step opt gamma objective _)).q_sqrt = _
    simp [adam_step, natgrad_step, hflags.2]

/-! ### `DirectlyParameterized` encoder (src/v1_depr/gpflux/encoders.py, lines 96-123)

The shape check compares a numpy array's `.shape` tuple, so arrays are
modelled with an explicit shape and an entry function.  `np.random.randn` is
a function parameter with its documented shape contract as a hypothesis. -/

/-- A numpy 2-D array: its `.shape` and its entries. -/
structure NPMat where
  shape : ℕ × ℕ
  entry : ℕ → ℕ → ℚ

/-- The `ValueError` of `DirectlyParameterized.__init__`, carrying the two
values interpolated into the message
"mean must have shape" with the two expected dimensions. -/
inductive EncoderError where
  | badMeanShape (num_data : ℕ) (latent_dim : ℕ) : EncoderError
deriving DecidableEq

/-- The state a successfully constructed `DirectlyParameterized` encoder
holds: `latent_dim`, `num_data`, the mean `Param` and the positive-
transformed std `Param`. -/
structure DirectlyParameterized where
  latent_dim : ℕ
  num_data : ℕ
  mean : NPMat
  std : NPMat

/-- Python `1e-5 * np.ones((num_data, latent_dim))`, the initial std `Param`. -/
def stdInit (num_data latent_dim : ℕ) : NPMat :=
  ⟨(num_data, latent_dim), fun _ _ => 1 / 100000⟩

/-- Python `DirectlyParameterized.__init__(latent_dim, num_data, mean)`: a missing
mean is replaced by `np.random.randn(num_data, latent_dim)`; a mean whose
shape is not `(num_data, latent_dim)` raises; otherwise the encoder state is
produced. -/
def DirectlyParameterized_init (latent_dim num_data : ℕ)
    (mean? : Option NPMat) (randn : ℕ → ℕ → NPMat) :
    Except EncoderError DirectlyParameterized :=
  let mean := match mean? with
    | none => randn num_data latent_dim
    | some m => m
  if mean.shape ≠ (num_data, latent_dim) then
    .error (.badMeanShape num_data latent_dim)
  else
    .ok ⟨latent_dim, num_data, mean, stdInit num_data latent_dim⟩

/-- Python `DirectlyParameterized.__call__(Z)`: returns the stored mean and std
`Param`s; the argument `Z` is not used. -/
def DirectlyParameterized_call (enc : DirectlyParameterized) (Z : NPMat) :
    NPMat × NPMat :=
  (enc.mean, enc.std)

/-- C6: constructing a `DirectlyParameterized` encoder with a supplied
initial mean whose shape differs from `(num_data, latent_dim)` raises the
invalid-configuration error and produces no encoder state; a supplied mean
of exactly that shape succeeds with that mean, and a missing mean succeeds
with a standard-normal draw of shape `(num_data, latent_dim)` (assuming the
numpy contract on `randn`). -/
theorem directly_parameterized_init_spec (latent_dim num_data : ℕ)
    (m : NPMat) (randn : ℕ → ℕ → NPMat)
    (hrandn : ∀ n d, (randn n d).shape = (n, d)) :
    (m.shape ≠ (num_data, latent_dim) →
      DirectlyParameterized_init latent_dim num_data (some m) randn =
        .error (.badMeanShape num_data latent_dim)) ∧
    (m.shape = (num_data, latent_dim) →
      DirectlyParameterized_init latent_dim num_data (some m) randn =
        .ok ⟨latent_dim, num_data, m, stdInit num_data latent_dim⟩) ∧
    (DirectlyParameterized_init latent_dim num_data none randn =
      .ok ⟨latent_dim, num_data, randn num_data latent_dim,
            stdInit num_data latent_dim⟩) := by
  refine ⟨?_, ?_, ?_⟩
  · intro h
    rw [DirectlyParameterized_init]
    simp only [if_pos h]
  · intro h
    rw [DirectlyParameterized_init]
    simp only [h, ne_eq, not_true_eq_false, if_false, ite_false]
  · rw [DirectlyParameterized_init]
    simp only [hrandn num_data latent_dim, ne_eq, not_true_eq_false, if_false, ite_false]

/-- A degenerate stand-in for `np.random.randn` on shaped arrays, used to
instantiate the numpy shape contract at concrete inputs. -/
def npRandnW : ℕ → ℕ → NPMat := fun n d => ⟨(n, d), fun _ _ => 0⟩

/-- Witness for C6 at `latent_dim = 1`, `num_data = 2` and a supplied mean of
shape `(1, 1)` (a wrong shape, so the error branch fires; the other two
conjuncts are instantiated as well). -/
theorem directly_parameterized_init_spec_witness :
    ((NPMat.mk (1, 1) (fun _ _ => 0)).shape ≠ ((2 : ℕ), (1 : ℕ)) →
      DirectlyParameterized_init 1 2 (some (NPMat.mk (1, 1) (fun _ _ => 0))) npRandnW =
        .error (.badMeanShape 2 1)) ∧
    ((NPMat.mk (1, 1) (fun _ _ => 0)).shape = ((2 : ℕ), (1 : ℕ)) →
      DirectlyParameterized_init 1 2 (some (NPMat.mk (1, 1) (fun _ _ => 0))) npRandnW =
        .ok ⟨1, 2, NPMat.mk (1, 1) (fun _ _ => 0), stdInit 2 1⟩) ∧
    (DirectlyParameterized_init 1 2 none npRandnW =
      .ok ⟨1, 2, npRandnW 2 1, stdInit 2 1⟩) :=
  directly_parameterized_init_spec 1 2 (NPMat.mk (1, 1) (fun _ _ => 0)) npRandnW
    (fun _ _ => rfl)

/-- The encoder state produced by a successful construction with
`num_data = 1`, `latent_dim = 1`. -/
def smallEncoder : DirectlyParameterized :=
  ⟨1, 1, NPMat.mk (1, 1) (fun _ _ => 0), stdInit 1 1⟩

/-- Counterexample to C7 as stated: the encoder constructed with
`num_data = 1`, `latent_dim = 1` (construction succeeds), applied to a batch
`Z` of shape `(3, 1)`, returns a mean whose leading dimension is `1`, not
the `3` rows of the batch passed in. -/
theorem directly_parameterized_call_cex :
    DirectlyParameterized_init 1 1 (some (NPMat.mk (1, 1) (fun _ _ => 0))) npRandnW =
      .ok smallEncoder ∧
    (NPMat.mk (3, 1) (fun _ _ => 0)).shape.1 = 3 ∧
    (DirectlyParameterized_call smallEncoder (NPMat.mk (3, 1) (fun _ _ => 0))).1.shape.1 = 1 ∧
    (1 : ℕ) ≠ 3 :=
  ⟨rfl, rfl, rfl, by decide⟩

/-- C7 (amended): `DirectlyParameterized.__call__(Z)` returns the stored
mean and scale `Param`s, both of shape `(num_data, latent_dim)`, for every
batch `Z`; the leading dimension of the returned arrays therefore matches
the batch passed in exactly when the batch has `num_data` rows — the full
positionally-indexed training set, the only batch the encoder is meant for. -/
theorem directly_parameterized_call_spec (latent_dim num_data : ℕ)
    (mean? : Option NPMat) (randn : ℕ → ℕ → NPMat)
    (enc : DirectlyParameterized) (Z : NPMat)
    (hrandn : ∀ n d, (randn n d).shape = (n, d))
    (h : DirectlyParameterized_init latent_dim num_data mean? randn = .ok enc) :
    DirectlyParameterized_call enc Z = (enc.mean, enc.std) ∧
    (DirectlyParameterized_call enc Z).1.shape = (num_data, latent_dim) ∧
    (DirectlyParameterized_call enc Z).2.shape = (num_data, latent_dim) ∧
    (Z.shape.1 = num_data →
      (DirectlyParameterized_call enc Z).1.shape.1 = Z.shape.1 ∧
      (DirectlyParameterized_call enc Z).2.shape.1 = Z.shape.1) := by
  rw [DirectlyParameterized_init.eq_def] at h
  set mean := (match mean? with
    | none => randn num_data latent_dim
    | some m => m) with hmean
  by_cases hsh : mean.shape ≠ (num_data, latent_dim)
  · rw [if_pos hsh] at h
    exact absurd h (by simp)
  · rw [if_neg hsh] at h
    have henc : (⟨latent_dim, num_data, mean, stdInit num_data latent_dim⟩ :
        DirectlyParameterized) = enc := Except.ok.inj h
    have hshape : mean.shape = (num_data, latent_dim) := not_not.mp hsh
    subst henc
    exact ⟨rfl, hshape, rfl, fun hz => ⟨by rw [hz]; exact congrArg Prod.fst hshape,
      by rw [hz]; rfl⟩⟩

/-- Witness for the amended C7 at the encoder of `num_data = 1`,
`latent_dim = 1` and a batch `Z` of shape `(1, 1)` (so the leading dimension
matches). -/
theorem directly_parameterized_call_spec_witness :
    DirectlyParameterized_call smallEncoder (NPMat.mk (1, 1) (fun _ _ => 0)) =
      (smallEncoder.mean, smallEncoder.std) ∧
    (DirectlyParameterized_call smallEncoder (NPMat.mk (1, 1) (fun _ _ => 0))).1.shape =
      ((1 : ℕ), (1 : ℕ)) ∧
    (DirectlyParameterized_call smallEncoder (NPMat.mk (1, 1) (fun _ _ => 0))).2.shape =
      ((1 : ℕ), (1 : ℕ)) ∧
    ((NPMat.mk (1, 1) (fun _ _ => 0)).shape.1 = 1 →
      (DirectlyParameterized_call smallEncoder (NPMat.mk (1, 1) (fun _ _ => 0))).1.shape.1 =
        (NPMat.mk (1, 1) (fun _ _ => 0)).shape.1 ∧
      (DirectlyParameterized_call smallEncoder (NPMat.mk (1, 1) (fun _ _ => 0))).2.shape.1 =
        (NPMat.mk (1, 1) (fun _ _ => 0)).shape.1) :=
  directly_parameterized_call_spec 1 1 (some (NPMat.mk (1, 1) (fun _ _ => 0))) npRandnW
    smallEncoder (NPMat.mk (1, 1) (fun _ _ => 0)) (fun _ _ => rfl) rfl

/-! ### `RecognitionNetwork` encoder (src/v1_depr/gpflux/encoders.py, lines 38-93)

The network acts row-wise; a single data row is a `List ℝ`.  `xavier_weights`
(the random initializer from `gpflux.utils`) is a function parameter.  The
nonlinearities live on the reals, so these definitions are noncomputable. -/

/-- Python `tf.nn.softplus`. -/
noncomputable def softplus (x : ℝ) : ℝ := Real.log (1 + Real.exp x)

/-- One affine layer, `tf.matmul(Z, W) + b` on a single row `z`:  entry `j`
is `Σ_i z_i * W[i][j] + b[j]`; the output width is the layer's `dim_out`,
carried by the bias vector `b` (built as `np.zeros(dim_out)`). -/
def dense (W : List (List ℝ)) (b : List ℝ) (z : List ℝ) : List ℝ :=
  (List.range b.length).map (fun j =>
    (List.zipWith (fun zi row => zi * row.getD j 0) z W).sum + b.getD j 0)

/-- The `for i, (W, b) in enumerate(zip(self.Ws, self.bs))` loop of
`RecognitionNetwork.__call__`: `Z = tf.matmul(Z, W) + b`, and the activation
is applied after every layer except the last (`if i < len(self.bs) - 1`). -/
def mlpForward (act : ℝ → ℝ) : List (List (List ℝ) × List ℝ) → List ℝ → List ℝ
  | [], z => z
  | [(W, b)], z => dense W b z
  | (W, b) :: p :: ps, z => mlpForward act (p :: ps) ((dense W b z).map act)

/-- Line 70 of the source:
`dims = [self.input_dim, *self.network_dims, self.latent_dim * 2]`. -/
def recognition_dims (input_dim : ℕ) (network_dims : List ℕ) (latent_dim : ℕ) :
    List ℕ :=
  input_dim :: (network_dims ++ [latent_dim * 2])

/-- Python `RecognitionNetwork._build_network`: one `(W, b)` pair per consecutive
`(dim_in, dim_out)` pair of `dims`, with `W = xavier_weights(dim_in, dim_out)`
and `b = np.zeros(dim_out)`. -/
def build_network (xavier_weights : ℕ → ℕ → List (List ℝ)) (dims : List ℕ) :
    List (List (List ℝ) × List ℝ) :=
  (dims.zip dims.tail).map (fun p => (xavier_weights p.1 p.2, List.replicate p.2 0))

/-- The state of a constructed `RecognitionNetwork`. -/
structure RecognitionNetwork where
  latent_dim : ℕ
  input_dim : ℕ
  network_dims : List ℕ
  activation_func : ℝ → ℝ
  q_sqrt_bias : ℝ
  layers : List (List (List ℝ) × List ℝ)

/-- The default of the `q_sqrt_bias` parameter: `3.0`. -/
def default_q_sqrt_bias : ℝ := 3

/-- Python `RecognitionNetwork.__init__`: the activation defaults to `tf.nn.tanh`
when `None` is passed, and `_build_network` populates the `(W, b)` pairs. -/
noncomputable def RecognitionNetwork_init (latent_dim input_dim : ℕ)
    (network_dims : List ℕ) (activation_func : Option (ℝ → ℝ)) (q_sqrt_bias : ℝ)
    (xavier_weights : ℕ → ℕ → List (List ℝ)) : RecognitionNetwork :=
  ⟨latent_dim, input_dim, network_dims,
    match activation_func with
    | none => Real.tanh
    | some f => f,
    q_sqrt_bias,
    build_network xavier_weights (recognition_dims input_dim network_dims latent_dim)⟩

/-- Python `RecognitionNetwork.__call__(Z)` on one row: run the MLP, split the
output into two equal halves (`tf.split(Z, 2, axis=1)`), and squash the
raw-scale half through `softplus` after subtracting `q_sqrt_bias`. -/
noncomputable def RecognitionNetwork_call (net : RecognitionNetwork)
    (z : List ℝ) : List ℝ × List ℝ :=
  let out := mlpForward net.activation_func net.layers z
  let q_mu := out.take (out.length / 2)
  let q_sqrt := out.drop (out.length / 2)
  (q_mu, q_sqrt.map (fun y => softplus (y - net.q_sqrt_bias)))

lemma dense_length (W : List (List ℝ)) (b : List ℝ) (z : List ℝ) :
    (dense W b z).length = b.length := by
  simp [dense]

lemma softplus_pos (x : ℝ) : 0 < softplus x := by
  have hexp : (0 : ℝ) < Real.exp x := Real.exp_pos x
  exact Real.log_pos (by linarith)

lemma mlpForward_build_length (xavier_weights : ℕ → ℕ → List (List ℝ))
    (act : ℝ → ℝ) (k : ℕ) :
    ∀ ds d0 z, (mlpForward act (build_network xavier_weights (d0 :: (ds ++ [k]))) z).length
      = k := by
  intro ds
  induction ds with
  | nil =>
    intro d0 z
    show (mlpForward act [(xavier_weights d0 k, List.replicate k 0)] z).length = k
    rw [mlpForward, dense_length, List.length_replicate]
  | cons d1 ds ih =>
    intro d0 z
    show (mlpForward act ((xavier_weights d0 d1, List.replicate d1 0) ::
      build_network xavier_weights (d1 :: (ds ++ [k])) ) z).length = k
    obtain ⟨x, xs, hx⟩ : ∃ x xs, ds ++ [k] = x :: xs := by
      cases h : ds ++ [k] with
      | nil => exact absurd h (by simp)
      | cons x xs => exact ⟨x, xs, rfl⟩
    have hbuild : build_network xavier_weights (d1 :: (ds ++ [k])) =
        (xavier_weights d1 x, List.replicate x 0) ::
          (List.zip (x :: xs) xs).map
            (fun p => (xavier_weights p.1 p.2, List.replicate p.2 0)) := by
      rw [hx]; rfl
    rw [hbuild, mlpForward, ← hbuild]
    exact ih d1 _

lemma recognition_call_lengths (net : RecognitionNetwork) (z : List ℝ)
    (h : (mlpForward net.activation_func net.layers z).length = net.latent_dim * 2) :
    (RecognitionNetwork_call net z).1.length = net.latent_dim ∧
    (RecognitionNetwork_call net z).2.length = net.latent_dim := by
  unfold RecognitionNetwork_call
  constructor
  · simp only [List.length_take, h]
    omega
  · simp only [List.length_map, List.length_drop, h]
    omega

/-- C8: the recognition network builds an MLP whose layer widths are
`[input_dim] ++ network_dims ++ [2 * latent_dim]` (one weight matrix and one
zero bias per consecutive width pair, the weights Xavier-drawn), applies the
activation between layers but not after the final one (the single-layer
forward is one affine map, and each earlier layer activates before the
rest), defaults the activation to `tanh` and the bias to `3.0`, splits the
final output into equal mean and raw-scale halves of length `latent_dim`,
returns `scale = softplus(raw_scale - q_sqrt_bias)` entrywise, and every
returned scale entry is strictly positive, for every input row. -/
theorem recognition_network_spec :
    (∀ input_dim network_dims latent_dim,
      recognition_dims input_dim network_dims latent_dim =
        [input_dim] ++ network_dims ++ [2 * latent_dim]) ∧
    (∀ xavier_weights dims, build_network xavier_weights dims =
      (dims.zip dims.tail).map
        (fun p => (xavier_weights p.1 p.2, List.replicate p.2 0))) ∧
    (∀ act W b z, mlpForward act [(W, b)] z = dense W b z) ∧
    (∀ act W b p ps z, mlpForward act ((W, b) :: p :: ps) z =
      mlpForward act (p :: ps) ((dense W b z).map act)) ∧
    (∀ lat inp nd bias xavier_weights,
      (RecognitionNetwork_init lat inp nd none bias xavier_weights).activation_func =
        Real.tanh) ∧
    (default_q_sqrt_bias = 3) ∧
    (∀ net z, (RecognitionNetwork_call net z).2 =
      ((mlpForward net.activation_func net.layers z).drop
        ((mlpForward net.activation_func net.layers z).length / 2)).map
          (fun y => softplus (y - net.q_sqrt_bias))) ∧
    (∀ lat inp nd act bias xavier_weights z,
      (RecognitionNetwork_call
        (RecognitionNetwork_init lat inp nd act bias xavier_weights) z).1.length = lat ∧
      (RecognitionNetwork_call
        (RecognitionNetwork_init lat inp nd act bias xavier_weights) z).2.length = lat) ∧
    (∀ net z, ∀ s ∈ (RecognitionNetwork_call net z).2, 0 < s) := by
  refine ⟨fun i nd l => by simp [recognition_dims, Nat.mul_comm],
    fun x d => rfl, fun a W b z => rfl, fun a W b p ps z => rfl,
    fun l i nd b x => rfl, rfl, fun net z => rfl, ?_, ?_⟩
  · intro lat inp nd act bias xavier_weights z
    exact recognition_call_lengths
      (RecognitionNetwork_init lat inp nd act bias xavier_weights) z
      (mlpForward_build_length xavier_weights _ (lat * 2) nd inp z)
  · intro net z s hs
    rcases List.mem_map.mp hs with ⟨y, _, rfl⟩
    exact softplus_pos _

/-! ### `BayesBench_DeepGP.sample` (src/experiments/bayesian_benchmarks/
bayesbench_deepgp.py, lines 149-151)

`sample(X, num_samples)` computes `m, v = self.predict(X)` and returns
`m + np.random.randn(*m.shape) * np.sqrt(v)`.  The wrapped model's `predict`
and numpy's `randn` are function parameters; `randn` receives `m`'s shape. -/

/-- A real 2-D array as a list of rows. -/
abbrev RMat := List (List ℝ)

/-- Elementwise combination of two arrays (numpy broadcasting on two arrays
of one common shape). -/
def elementwise (f : ℝ → ℝ → ℝ) (A B : RMat) : RMat :=
  List.zipWith (List.zipWith f) A B

/-- Python `np.sqrt`, elementwise. -/
noncomputable def matSqrt (A : RMat) : RMat := A.map (List.map Real.sqrt)

/-- Row-by-row equality of dimensions, the numpy shape agreement these
elementwise operations rely on. -/
def sameDims (A B : RMat) : Prop :=
  List.Forall₂ (fun r s => r.length = s.length) A B

/-- Python `BayesBench_DeepGP.sample(X, num_samples)`. -/
noncomputable def BayesBench_sample (model_predict : RMat → RMat × RMat)
    (randn : ℕ × ℕ → RMat) (X : RMat) (num_samples : ℕ) : RMat :=
  let m := (model_predict X).1
  let v := (model_predict X).2
  elementwise (· + ·) m
    (elementwise (· * ·) (randn (m.length, m.headI.length)) (matSqrt v))

lemma elementwise_sameDims (f : ℝ → ℝ → ℝ) :
    ∀ A B M : RMat, sameDims A M → sameDims B M →
      sameDims (elementwise f A B) M := by
  intro A B M hA hB
  induction M generalizing A B with
  | nil =>
    cases hA
    cases hB
    exact List.Forall₂.nil
  | cons m M ih =>
    cases hA with
    | cons ha hA' =>
      cases hB with
      | cons hb hB' =>
        refine List.Forall₂.cons ?_ (ih _ _ hA' hB')
        rename_i a A' b B'
        rw [List.length_zipWith, ha, hb]
        exact Nat.min_self m.length

lemma matSqrt_sameDims (V M : RMat) (h : sameDims V M) :
    sameDims (matSqrt V) M := by
  induction M generalizing V with
  | nil => cases h; exact List.Forall₂.nil
  | cons m M ih =>
    cases h with
    | cons hv h' =>
      exact List.Forall₂.cons (by simpa using hv) (ih _ h')

/-- C9: `sample(X, num_samples)` returns
`predictive_mean + randn(mean.shape) * sqrt(predictive_variance)` — in
particular the result is the same for every value of `num_samples` — and,
whenever the noise draw and the predictive variance have the mean's
dimensions (numpy's contract for `randn(*m.shape)` and `predict`), the
returned array has exactly the predictive mean's dimensions, independent of
`num_samples`. -/
theorem bayesbench_sample_spec (model_predict : RMat → RMat × RMat)
    (randn : ℕ × ℕ → RMat) (X : RMat) (n₁ n₂ : ℕ)
    (hrandn : sameDims
      (randn ((model_predict X).1.length, (model_predict X).1.headI.length))
      (model_predict X).1)
    (hv : sameDims (model_predict X).2 (model_predict X).1) :
    BayesBench_sample model_predict randn X n₁ =
      elementwise (· + ·) (model_predict X).1
        (elementwise (· * ·)
          (randn ((model_predict X).1.length, (model_predict X).1.headI.length))
          (matSqrt (model_predict X).2)) ∧
    BayesBench_sample model_predict randn X n₁ =
      BayesBench_sample model_predict randn X n₂ ∧
    sameDims (BayesBench_sample model_predict randn X n₁) (model_predict X).1 := by
  refine ⟨rfl, rfl, ?_⟩
  have hm : sameDims (model_predict X).1 (model_predict X).1 :=
    List.forall₂_same.mpr (fun r _ => rfl)
  exact elementwise_sameDims _ _ _ _ hm
    (elementwise_sameDims _ _ _ _ hrandn (matSqrt_sameDims _ _ hv))

/-- A concrete one-point model used to instantiate C9: the predictive mean
is `[[0]]` and the predictive variance `[[1]]`. -/
noncomputable def predictW : RMat → RMat × RMat := fun _ => ([[0]], [[1]])

/-- A concrete noise source of one row and one column. -/
noncomputable def rmatRandnW : ℕ × ℕ → RMat := fun _ => [[0]]

/-- Witness for C9 at the one-point model, with `num_samples` 1 and 7. -/
theorem bayesbench_sample_spec_witness :
    BayesBench_sample predictW rmatRandnW [[0]] 1 =
      elementwise (· + ·) (predictW [[0]]).1
        (elementwise (· * ·)
          (rmatRandnW ((predictW [[0]]).1.length, (predictW [[0]]).1.headI.length))
          (matSqrt (predictW [[0]]).2)) ∧
    BayesBench_sample predictW rmatRandnW [[0]] 1 =
      BayesBench_sample predictW rmatRandnW [[0]] 7 ∧
    sameDims (BayesBench_sample predictW rmatRandnW [[0]] 1) (predictW [[0]]).1 :=
  bayesbench_sample_spec predictW rmatRandnW [[0]] 1 7
    (List.Forall₂.cons rfl List.Forall₂.nil)
    (List.Forall₂.cons rfl List.Forall₂.nil)

/-! ### `BayesBench_DeepGP.Config` and `fit` (src/experiments/
bayesian_benchmarks/bayesbench_deepgp.py, lines 84-115)

`Config` is a namespace of class attributes; `fit` receives it (defaulting
to `self.Config`) and, when the dataset is no larger than the minibatch
size, assigns `Config.MINIBATCH = None` — mutating the configuration.
`MINIBATCH` is therefore an `Option ℕ`. -/

/-- The fields of `BayesBench_DeepGP.Config`. -/
structure AdapterConfig where
  NATGRAD : Bool
  ADAM_LR : ℚ
  GAMMA : ℚ
  VAR : ℚ
  FIX_VAR : Bool
  M : ℕ
  MAXITER : ℕ
  MINIBATCH : Option ℕ
deriving DecidableEq, Repr

/-- The class-level defaults of `Config`. -/
def defaultConfig : AdapterConfig :=
  ⟨true, 1 / 100, 1 / 10, 1 / 100, false, 100, 10000, some 1000⟩

/-- Python `BayesBench_DeepGP.__init__(is_test)`: test mode overrides `M = 5` and
`MAXITER = 500` at adapter construction time. -/
def adapter_init (is_test : Bool) (cfg : AdapterConfig) : AdapterConfig :=
  if is_test then { cfg with M := 5, MAXITER := 500 } else cfg

/-- The configuration handling inside `fit` (lines 114-115):
`if num_data <= Config.MINIBATCH: Config.MINIBATCH = None`.  When
`MINIBATCH` is already `None`, the Python comparison of `int` and
`NoneType` raises a `TypeError`. -/
def fit_config_update (cfg : AdapterConfig) (num_data : ℕ) :
    Except String AdapterConfig :=
  match cfg.MINIBATCH with
  | none => .error "TypeError: comparison not supported between int and NoneType"
  | some mb => .ok (if num_data ≤ mb then { cfg with MINIBATCH := none } else cfg)

/-- Counterexample to C10 as stated: on a 5-row dataset, `fit` on the
default configuration (`MINIBATCH = 1000`) returns with `MINIBATCH` set to
`None`, so the `MINIBATCH` field does not have the same value after `fit`
as when `fit` was entered. -/
theorem fit_config_mutation_cex :
    fit_config_update defaultConfig 5 =
      .ok { defaultConfig with MINIBATCH := none } ∧
    defaultConfig.MINIBATCH = some 1000 ∧
    ({ defaultConfig with MINIBATCH := (none : Option ℕ) }).MINIBATCH ≠
      defaultConfig.MINIBATCH :=
  ⟨rfl, rfl, by decide⟩

/-- C10 (amended): test mode rewrites `M` and `MAXITER` at construction
time only; afterwards `fit` leaves every configuration field unchanged
except `MINIBATCH`:  when the dataset has more rows than the configured
minibatch size the configuration is returned untouched, but when it has at
most that many rows `fit` sets `MINIBATCH` to `None` — a persistent
modification of the training configuration. -/
theorem fit_config_update_spec (cfg : AdapterConfig) (num_data mb : ℕ)
    (h : cfg.MINIBATCH = some mb) :
    (adapter_init true cfg = { cfg with M := 5, MAXITER := 500 }) ∧
    (adapter_init false cfg = cfg) ∧
    (mb < num_data → fit_config_update cfg num_data = .ok cfg) ∧
    (num_data ≤ mb →
      fit_config_update cfg num_data = .ok { cfg with MINIBATCH := none }) ∧
    (∀ cfg', fit_config_update cfg num_data = .ok cfg' →
      cfg'.NATGRAD = cfg.NATGRAD ∧ cfg'.ADAM_LR = cfg.ADAM_LR ∧
      cfg'.GAMMA = cfg.GAMMA ∧ cfg'.VAR = cfg.VAR ∧
      cfg'.FIX_VAR = cfg.FIX_VAR ∧ cfg'.M = cfg.M ∧
      cfg'.MAXITER = cfg.MAXITER) := by
  refine ⟨rfl, rfl, ?_, ?_, ?_⟩
  · intro hlt
    rw [fit_config_update, h]
    simp only [Except.ok.injEq]
    exact if_neg (not_le.mpr hlt)
  · intro hle
    rw [fit_config_update, h]
    simp only [Except.ok.injEq]
    exact if_pos hle
  · intro cfg' hok
    rw [fit_config_update, h] at hok
    have hcfg' : cfg' = if num_data ≤ mb then { cfg with MINIBATCH := none } else cfg :=
      (Except.ok.inj hok).symm
    subst hcfg'
    by_cases hc : num_data ≤ mb
    · rw [if_pos hc]
      exact ⟨rfl, rfl, rfl, rfl, rfl, rfl, rfl⟩
    · rw [if_neg hc]
      exact ⟨rfl, rfl, rfl, rfl, rfl, rfl, rfl⟩

/-- Witness for the amended C10 at the default configuration and a 5-row
dataset. -/
theorem fit_config_update_spec_witness :
    (adapter_init true defaultConfig = { defaultConfig with M := 5, MAXITER := 500 }) ∧
    (adapter_init false defaultConfig = defaultConfig) ∧
    (1000 < 5 → fit_config_update defaultConfig 5 = .ok defaultConfig) ∧
    (5 ≤ 1000 →
      fit_config_update defaultConfig 5 =
        .ok { defaultConfig with MINIBATCH := none }) ∧
    (∀ cfg', fit_config_update defaultConfig 5 = .ok cfg' →
      cfg'.NATGRAD = defaultConfig.NATGRAD ∧ cfg'.ADAM_LR = defaultConfig.ADAM_LR ∧
      cfg'.GAMMA = defaultConfig.GAMMA ∧ cfg'.VAR = defaultConfig.VAR ∧
      cfg'.FIX_VAR = defaultConfig.FIX_VAR ∧ cfg'.M = defaultConfig.M ∧
      cfg'.MAXITER = defaultConfig.MAXITER) :=
  fit_config_update_spec defaultConfig 5 1000 rfl

end GPflux
